import Mathlib

/-!
Verification of the pack installation and integrity pipeline of the
simplifia installer.  The Python source under `src/simplifia/` is shallowly
embedded: pure computations become Lean functions, and the file-system /
network effects of the install, update and ledger operations become explicit
event traces over inductive event types.

Embedded modules:
* `src/simplifia/install.py` — `install_pack` (digest verification,
  extraction, manifest discovery, ledger commit) and
  `run_sqlite_migrations`;
* `src/simplifia/state.py` — `get_installed_packs`, `mark_installed`,
  `mark_uninstalled`;
* `src/simplifia/update.py` — `update_single_pack`.

`hashlib.sha256(...).hexdigest()` is embedded as a full executable SHA-256
over byte lists, and `zipfile.ZipFile.extractall` is embedded with CPython's
member-name sanitisation (drop empty, `.` and `..` path components), which is
the extraction semantics the installer actually gets.
-/

namespace Simplifia

/-! ### SHA-256 over byte lists (embedding of `hashlib.sha256(...).hexdigest()`) -/

/-- 2^32, the word modulus of SHA-256. -/
def M32 : Nat := 4294967296

/-- Right rotation of a 32-bit word. -/
def rotr32 (n x : Nat) : Nat := ((x >>> n) ||| (x <<< (32 - n))) % M32

/-- Bitwise complement of a 32-bit word. -/
def not32 (x : Nat) : Nat := Nat.xor x 4294967295

/-- Three-way xor. -/
def xor3 (a b c : Nat) : Nat := Nat.xor (Nat.xor a b) c

/-- SHA-256 choice function. -/
def ch (x y z : Nat) : Nat := Nat.xor (Nat.land x y) (Nat.land (not32 x) z)

/-- SHA-256 majority function. -/
def maj (x y z : Nat) : Nat := xor3 (Nat.land x y) (Nat.land x z) (Nat.land y z)

/-- SHA-256 Σ0. -/
def bigSigma0 (x : Nat) : Nat := xor3 (rotr32 2 x) (rotr32 13 x) (rotr32 22 x)

/-- SHA-256 Σ1. -/
def bigSigma1 (x : Nat) : Nat := xor3 (rotr32 6 x) (rotr32 11 x) (rotr32 25 x)

/-- SHA-256 σ0. -/
def smallSigma0 (x : Nat) : Nat := xor3 (rotr32 7 x) (rotr32 18 x) (x >>> 3)

/-- SHA-256 σ1. -/
def smallSigma1 (x : Nat) : Nat := xor3 (rotr32 17 x) (rotr32 19 x) (x >>> 10)

/-- The 64 SHA-256 round constants. -/
def K256 : List Nat :=
  [1116352408, 1899447441, 3049323471, 3921009573, 961987163, 1508970993,
   2453635748, 2870763221, 3624381080, 310598401, 607225278, 1426881987,
   1925078388, 2162078206, 2614888103, 3248222580, 3835390401, 4022224774,
   264347078, 604807628, 770255983, 1249150122, 1555081692, 1996064986,
   2554220882, 2821834349, 2952996808, 3210313671, 3336571891, 3584528711,
   113926993, 338241895, 666307205, 773529912, 1294757372, 1396182291,
   1695183700, 1986661051, 2177026350, 2456956037, 2730485921, 2820302411,
   3259730800, 3345764771, 3516065817, 3600352804, 4094571909, 275423344,
   430227734, 506948616, 659060556, 883997877, 958139571, 1322822218,
   1537002063, 1747873779, 1955562222, 2024104815, 2227730452, 2361852424,
   2428436474, 2756734187, 3204031479, 3329325298]

/-- The initial SHA-256 hash state. -/
def H256 : List Nat :=
  [1779033703, 3144134277, 1013904242, 2773480762, 1359893119, 2600822924,
   528734635, 1541459225]

/-- SHA-256 padding: append `0x80`, zero bytes, then the 64-bit big-endian
bit length, reaching a multiple of 64 bytes. -/
def padMessage (msg : List Nat) : List Nat :=
  let L := msg.length
  let zeros := (119 - (L % 64)) % 64
  let lenBits := 8 * L
  msg ++ [128] ++ List.replicate zeros 0 ++
    (List.range 8).map (fun i => (lenBits >>> (8 * (7 - i))) % 256)

/-- The 16 big-endian 32-bit words of block `b` of a padded message. -/
def blockWords (padded : List Nat) (b : Nat) : List Nat :=
  (List.range 16).map (fun j =>
    let off := 64 * b + 4 * j
    padded.getD off 0 * 16777216 + padded.getD (off + 1) 0 * 65536 +
      padded.getD (off + 2) 0 * 256 + padded.getD (off + 3) 0)

/-- Extend the 16-word block to the 64-word message schedule, `n` steps. -/
def extendSchedule : List Nat → Nat → List Nat
  | ws, 0 => ws
  | ws, Nat.succ n =>
    let l := ws.length
    let w := (smallSigma1 (ws.getD (l - 2) 0) + ws.getD (l - 7) 0 +
              smallSigma0 (ws.getD (l - 15) 0) + ws.getD (l - 16) 0) % M32
    extendSchedule (ws ++ [w]) n

/-- One round of the SHA-256 compression function on an 8-word state. -/
def compressStep (st : List Nat) (kw : Nat × Nat) : List Nat :=
  match st with
  | [a, b, c, d, e, f, g, h] =>
    let t1 := (h + bigSigma1 e + ch e f g + kw.1 + kw.2) % M32
    let t2 := (bigSigma0 a + maj a b c) % M32
    [(t1 + t2) % M32, a, b, c, (d + t1) % M32, e, f, g]
  | _ => st

/-- Compress one message block into the running hash state. -/
def compressBlock (hs ws : List Nat) : List Nat :=
  let final := (K256.zip (extendSchedule ws 48)).foldl compressStep hs
  (hs.zip final).map (fun p => (p.1 + p.2) % M32)

/-- SHA-256 digest of a byte list, as 32 bytes. -/
def sha256bytes (msg : List Nat) : List Nat :=
  let padded := padMessage msg
  let hs := (List.range (padded.length / 64)).foldl
    (fun hs b => compressBlock hs (blockWords padded b)) H256
  (hs.map (fun w => (List.range 4).map (fun i => (w >>> (8 * (3 - i))) % 256))).flatten

/-- Lowercase hexadecimal digit. -/
def hexChar (n : Nat) : Char :=
  if n < 10 then Char.ofNat (48 + n) else Char.ofNat (87 + n)

/-- Lowercase hex encoding of SHA-256, the embedding of
`hashlib.sha256(content).hexdigest()` in `install.py` line 69. -/
def sha256_hexdigest (msg : List Nat) : String :=
  String.mk ((sha256bytes msg).map (fun b => [hexChar (b / 16), hexChar (b % 16)])).flatten

/-! ### The install-state ledger (embedding of `src/simplifia/state.py`)

A ledger record (`installed[pack_id]`) is a Python string dict; the ledger
document is a dict from pack id to record.  Python dicts are embedded as
association lists in which assignment replaces the first binding in place
and otherwise appends, matching insertion-order dict semantics. -/

/-- A ledger record: a Python string-to-string dict holding
name, version and installed_at. -/
abbrev Record := List (String × String)

/-- The ledger document: pack id to record. -/
abbrev Ledger := List (String × Record)

/-- `rec.get(k, dflt)` on a record. -/
def recGetD : Record → String → String → String
  | [], _, dflt => dflt
  | (k', v') :: rest, k, dflt => if k' = k then v' else recGetD rest k dflt

/-- Dict lookup: `d[k]` when present, `none` when the key is absent. -/
def ledgerGet : Ledger → String → Option Record
  | [], _ => none
  | (k', v') :: rest, k => if k' = k then some v' else ledgerGet rest k

/-- Dict assignment `d[k] = v`: replace the binding in place if the key is
present, else append. -/
def ledgerSet : Ledger → String → Record → Ledger
  | [], k, v => [(k, v)]
  | (k', v') :: rest, k, v =>
    if k' = k then (k, v) :: rest else (k', v') :: ledgerSet rest k v

/-- Dict deletion `del d[k]`. -/
def ledgerDel : Ledger → String → Ledger
  | [], _ => []
  | (k', v') :: rest, k =>
    if k' = k then rest else (k', v') :: ledgerDel rest k

/-- The keys of a ledger document, in order. -/
def ledgerKeys : Ledger → List String
  | [] => []
  | (k, _) :: rest => k :: ledgerKeys rest

/-- The observable state of the `installed.json` file: absent, present but
not valid JSON, or a valid ledger document. -/
inductive LedgerFile
  | absent
  | corrupt
  | valid (d : Ledger)
  deriving DecidableEq

/-- `get_simplifia_path() / "installed.json"` from `state.py`. -/
def stateFilePath : String := "~/.simplifia/installed.json"

/-- `get_simplifia_path()`, the parent directory of the state file. -/
def simplifiaDir : String := "~/.simplifia"

/-- `get_installed_packs` (`state.py` lines 14-23): missing or unparseable
file yields the empty mapping. -/
def get_installed_packs : LedgerFile → Ledger
  | .absent => []
  | .corrupt => []
  | .valid d => d

/-- A file-system operation performed by the ledger functions.  `write` is a
whole-document `write_text`; `rename` and a write to a path other than the
state file are in the vocabulary so that the atomic-write discipline is
expressible, though `state.py` never performs a rename. -/
inductive FsOp
  | mkdirParents (path : String)
  | write (path : String) (doc : Ledger)
  | rename (src dst : String)
  deriving DecidableEq

/-- `mark_installed` (`state.py` lines 25-32) as the trace of file-system
operations it performs: read-modify, `mkdir(parents=True)`, then a direct
`write_text` of the whole document to the state file. -/
def mark_installed (fs : LedgerFile) (pack_id : String) (info : Record) :
    List FsOp :=
  let installed := get_installed_packs fs
  let installed' := ledgerSet installed pack_id info
  [FsOp.mkdirParents simplifiaDir, FsOp.write stateFilePath installed']

/-- `mark_uninstalled` (`state.py` lines 34-40): writes only when the pack id
is present in the parsed document. -/
def mark_uninstalled (fs : LedgerFile) (pack_id : String) : List FsOp :=
  let installed := get_installed_packs fs
  if (ledgerGet installed pack_id).isSome then
    [FsOp.write stateFilePath (ledgerDel installed pack_id)]
  else []

/-- Effect of one file-system operation on the state file. -/
def applyOp (fs : LedgerFile) : FsOp → LedgerFile
  | FsOp.write p d => if p = stateFilePath then .valid d else fs
  | _ => fs

/-- Effect of a trace of file-system operations on the state file. -/
def applyOps (fs : LedgerFile) (ops : List FsOp) : LedgerFile :=
  ops.foldl applyOp fs

/-- Does this operation write directly to the state file? -/
def isWriteToState : FsOp → Bool
  | FsOp.write p _ => p == stateFilePath
  | _ => false

/-- Is this operation a rename? -/
def isRename : FsOp → Bool
  | FsOp.rename _ _ => true
  | _ => false

/-! ### SQLite migrations (embedding of `run_sqlite_migrations`,
`install.py` lines 194-217)

Each listed migration file either does not exist under the effective root,
or exists and its SQL script runs successfully, or exists and raises
`sqlite3.Error`.  The environment's answer for each file is carried on the
migration datum. -/

/-- One migration script of `db_config` together with the environment's
behaviour for it: whether the file exists under the effective root and
whether executing its script succeeds. -/
structure Migration where
  name : String
  present : Bool
  runOk : Bool
  errMsg : String
  deriving DecidableEq

/-- An observable outcome reported by the migration runner: a success line
or a per-migration warning. -/
inductive MigEv
  | ok (name : String)
  | warn (name errMsg : String)
  deriving DecidableEq

/-- `run_sqlite_migrations`: for each listed file in order, skip it silently
when absent, otherwise run it, catching `sqlite3.Error` into a warning and
continuing with the rest of the list. -/
def run_sqlite_migrations : List Migration → List MigEv
  | [] => []
  | m :: ms =>
    (if m.present then
      [if m.runOk then MigEv.ok m.name else MigEv.warn m.name m.errMsg]
     else []) ++ run_sqlite_migrations ms

/-! ### Pack descriptors and the update flow (embedding of
`src/simplifia/registry.py` and `src/simplifia/update.py`) -/

/-- The registry entry for a pack, as read by `install.py` lines 32-34 and
`update.py` line 50.  Each field is optional because the Python code reads
it with `.get`. -/
structure PackInfo where
  name : Option String
  zip_url : Option String
  sha256 : Option String
  latest_version : Option String
  deriving DecidableEq

/-- Outcome of `update_single_pack` (`update.py` lines 33-59). -/
inductive UpdateOutcome
  | notInstalled
  | notFoundInRegistry
  | upToDate (version : String)
  | delegatedInstall (pack_id : String) (force : Bool)
  deriving DecidableEq

/-- An observable action of the update flow: an artifact download or a
delegation to `install_pack`. -/
inductive UpdEv
  | download (url : String)
  | installDelegate (pack_id : String) (force : Bool)
  deriving DecidableEq

/-- `update_single_pack`: look the pack up in the ledger, fetch its registry
entry, compare the installed version (default "0.0.0") with the registry's
`latest_version` (default "0.0.0"); if equal, return up-to-date doing
nothing, else call `install_pack(pack_id, force=True)`. -/
def update_single_pack (installed : Ledger) (pack_id : String)
    (pack_info : Option PackInfo) : UpdateOutcome × List UpdEv :=
  match ledgerGet installed pack_id with
  | none => (.notInstalled, [])
  | some r =>
    let current_version := recGetD r "version" "0.0.0"
    match pack_info with
    | none => (.notFoundInRegistry, [])
    | some pi =>
      let latest_version := pi.latest_version.getD "0.0.0"
      if current_version = latest_version then
        (.upToDate current_version, [])
      else
        (.delegatedInstall pack_id true,
         [UpdEv.installDelegate pack_id true])

/-! ### Archive extraction (embedding of `zip_ref.extractall` at
`install.py` lines 79-80)

The installer extracts with CPython's `ZipFile.extractall`, whose
`_extract_member` sanitises each member name: the name is split on the path
separator and every empty, `.` and `..` component is dropped before the
target path is joined, so no member can place a file outside the target
directory.  Sanitisation is not rejection, but extraction is not total
either: a *file* member whose whole name sanitises away (e.g. a member
literally named `..`) leaves the bare target path, and the stdlib raises on
opening it for writing (`ValueError` "Empty filename." on current Python;
`IsADirectoryError` on 3.11 once the target directory exists).  That
failure is an ordinary I/O error, not a path-traversal rejection.  A
directory member (name ending in `/`) with an empty sanitised name is just
the target directory itself and raises nothing. -/

/-- Extraction failure vocabulary: `pathTraversal` is the spec's claimed
rejection (never produced by the embedded extractor); `emptyFileName` is
the stdlib's error for a file member whose entire name sanitises away. -/
inductive ExtractionError
  | pathTraversal
  | emptyFileName
  deriving DecidableEq

/-- Is a path component kept by CPython's member-name sanitisation? -/
def componentSafe (p : String) : Bool := p != "" && p != "." && p != ".."

/-- Split a character list on `/`, accumulating the current component in
reverse. -/
def splitSlashAux : List Char → List Char → List String
  | [], acc => [String.mk acc.reverse]
  | c :: rest, acc =>
    if c = '/' then String.mk acc.reverse :: splitSlashAux rest []
    else splitSlashAux rest (c :: acc)

/-- Split a member name on the path separator `/`. -/
def splitSlash (s : String) : List String := splitSlashAux s.data []

/-- CPython's member-name sanitisation: split on `/` and drop empty, `.`
and `..` components; the result is the path of the member relative to the
extraction target. -/
def sanitizeParts (name : String) : List String :=
  (splitSlash name).filter componentSafe

/-- `ZipInfo.is_dir`: a member is a directory entry when its name ends in
`/`. -/
def isDirMember (name : String) : Bool :=
  match name.data.getLast? with
  | some c => c = '/'
  | none => false

/-- `_extract_member` for one entry: a file member whose entire name
sanitises away raises the stdlib's empty-filename error; every other entry
is placed at its sanitised target-relative path (a directory member with an
empty sanitised name is the target directory itself). -/
def extractMember (name : String) : Except ExtractionError (List String) :=
  if (sanitizeParts name).isEmpty && !isDirMember name then
    Except.error ExtractionError.emptyFileName
  else Except.ok (sanitizeParts name)

/-- `extractall`: extract the entries in order, stopping at the first
member whose extraction raises; on success the result is the list of
target-relative extracted paths. -/
def extractall : List String → Except ExtractionError (List (List String))
  | [] => Except.ok []
  | e :: rest =>
    match extractMember e with
    | Except.error err => Except.error err
    | Except.ok p =>
      match extractall rest with
      | Except.error err => Except.error err
      | Except.ok ps => Except.ok (p :: ps)

/-! ### The install pipeline (embedding of `install_pack`,
`install.py` lines 22-137)

The network download and the on-disk extracted tree are the pipeline's
environment and enter as parameters: `download` is the result of the
streamed GET, and `tree` is the directory tree present under
`tmpdir/extracted` after `extractall`.  Everything else — registry field
reads, truthiness checks, digest verification, manifest discovery, and the
ledger commit — is computed exactly as the source does, and the observable
side effects are collected as an event trace. -/

/-- The parsed `pack.json` fields the pipeline reads (`install.py` lines
124-127); each is read with `.get`, hence optional. -/
structure PackConfig where
  name : Option String
  version : Option String
  deriving DecidableEq

/-- A directory of the extracted tree, as inspected by manifest discovery:
whether it directly contains `pack.json`, and the parsed content of that
file when it does. -/
structure ExtractedDir where
  hasPackJson : Bool
  packConfig : PackConfig
  deriving DecidableEq

/-- The extracted tree: the extraction root and its immediate
subdirectories (entries of `extract_path.iterdir()` for which `is_dir()`
holds, in iteration order). -/
structure ExtractedTree where
  root : ExtractedDir
  subdirs : List (String × ExtractedDir)
  deriving DecidableEq

/-- Manifest discovery (`install.py` lines 82-95): use the extraction root
if `pack.json` is there, else the first immediate subdirectory containing
`pack.json`; `none` when the two-level search finds nothing.  The returned
first component names the effective root (`none` for the extraction root
itself). -/
def findPackRoot (t : ExtractedTree) : Option (Option String × ExtractedDir) :=
  if t.root.hasPackJson then some (none, t.root)
  else
    match t.subdirs.find? (fun sd => sd.2.hasPackJson) with
    | some (n, d) => some (some n, d)
    | none => none

/-- Outcome of the digest-verification step. -/
inductive VerifyResult
  | skipped
  | verified
  | mismatch (expected actual : String)
  deriving DecidableEq

/-- The digest-verification step (`install.py` lines 67-75): skipped when
the registry supplies no (or a falsy, empty) `sha256`; otherwise the
lowercase hex SHA-256 of the downloaded bytes is compared with `!=` against
the expected string, reporting both digests on mismatch. -/
def verify_sha256 (expected_sha : Option String) (content : List Nat) :
    VerifyResult :=
  match expected_sha with
  | none => .skipped
  | some expected =>
    if expected = "" then .skipped
    else if sha256_hexdigest content ≠ expected then
      .mismatch expected (sha256_hexdigest content)
    else .verified

/-- An observable event of an install run. -/
inductive InstEv
  | verifyFail (expected actual : String)
  | verifyOk
  | extract
  | manifestMissing
  | ledgerPut (pack_id : String) (info : Record)
  deriving DecidableEq

/-- `install_pack` (`install.py` lines 22-137): registry lookup and field
reads, download, optional digest verification, extraction, manifest
discovery, and on success the ledger commit with the record built from the
manifest (falling back to the registry version, default "unknown").  The
returned Bool is the function's Python return value; the trace records the
digest report, the extraction, and the ledger write.  `force` is accepted
and, as in the source, never read.  `now` stands for
`datetime.now().isoformat()`. -/
def install_pack (pack_id : String) (pack_info : Option PackInfo)
    (force : Bool) (download : Except Unit (List Nat)) (tree : ExtractedTree)
    (now : String) : Bool × List InstEv :=
  match pack_info with
  | none => (false, [])
  | some pi =>
    if pi.zip_url.getD "" = "" then (false, [])
    else
      match download with
      | .error _ => (false, [])
      | .ok content =>
        match verify_sha256 pi.sha256 content with
        | .mismatch expected actual =>
          (false, [InstEv.verifyFail expected actual])
        | vr =>
          let verifyEvs := if vr = VerifyResult.verified then [InstEv.verifyOk] else []
          match findPackRoot tree with
          | none => (false, verifyEvs ++ [InstEv.extract, InstEv.manifestMissing])
          | some (_, dir) =>
            let cfg := dir.packConfig
            let version := pi.latest_version.getD "unknown"
            let record : Record :=
              [("name", cfg.name.getD pack_id),
               ("version", cfg.version.getD version),
               ("installed_at", now)]
            (true, verifyEvs ++ [InstEv.extract, InstEv.ledgerPut pack_id record])

/-- Effect of one install event on the ledger file: only the ledger commit
touches it, via `mark_installed`. -/
def applyInstEv (fs : LedgerFile) : InstEv → LedgerFile
  | InstEv.ledgerPut pid info => applyOps fs (mark_installed fs pid info)
  | _ => fs

/-- Effect of an install trace on the ledger file. -/
def applyInstEvs (fs : LedgerFile) (evs : List InstEv) : LedgerFile :=
  evs.foldl applyInstEv fs

/-! ### Ledger lemmas -/

/-- Assignment makes the key map to the assigned record. -/
theorem ledgerGet_set_self (d : Ledger) (k : String) (v : Record) :
    ledgerGet (ledgerSet d k v) k = some v := by
  induction d with
  | nil => simp [ledgerSet, ledgerGet]
  | cons p rest ih =>
    obtain ⟨k', v'⟩ := p
    by_cases h : k' = k
    · simp [ledgerSet, ledgerGet, h]
    · simp [ledgerSet, ledgerGet, h, ih]

/-- Assignment leaves every other key's record unchanged. -/
theorem ledgerGet_set_other (d : Ledger) (k : String) (v : Record)
    (k' : String) (h : k' ≠ k) :
    ledgerGet (ledgerSet d k v) k' = ledgerGet d k' := by
  induction d with
  | nil => simp [ledgerSet, ledgerGet, Ne.symm h]
  | cons p rest ih =>
    obtain ⟨a, b⟩ := p
    by_cases ha : a = k
    · subst ha
      simp [ledgerSet, ledgerGet, Ne.symm h]
    · simp [ledgerSet, ledgerGet, ha, ih]

/-- Lookup fails exactly when the key is absent. -/
theorem ledgerGet_none_iff (d : Ledger) (k : String) :
    ledgerGet d k = none ↔ k ∉ ledgerKeys d := by
  induction d with
  | nil => simp [ledgerGet, ledgerKeys]
  | cons p rest ih =>
    obtain ⟨a, b⟩ := p
    by_cases ha : a = k
    · subst ha
      simp [ledgerGet, ledgerKeys]
    · simp [ledgerGet, ledgerKeys, ha, ih, Ne.symm ha]

/-- Keys after an assignment come from the old keys or are the assigned
key. -/
theorem mem_keys_set (d : Ledger) (k : String) (v : Record) (x : String)
    (hx : x ∈ ledgerKeys (ledgerSet d k v)) : x ∈ ledgerKeys d ∨ x = k := by
  induction d with
  | nil =>
    simp [ledgerSet, ledgerKeys] at hx
    exact Or.inr hx
  | cons p rest ih =>
    obtain ⟨a, b⟩ := p
    by_cases ha : a = k
    · subst ha
      simp only [ledgerSet, if_pos rfl, ledgerKeys, List.mem_cons] at hx ⊢
      rcases hx with hx | hx
      · exact Or.inr hx
      · exact Or.inl (Or.inr hx)
    · simp only [ledgerSet, if_neg ha, ledgerKeys, List.mem_cons] at hx ⊢
      rcases hx with hx | hx
      · exact Or.inl (Or.inl hx)
      · rcases ih hx with hh | hh
        · exact Or.inl (Or.inr hh)
        · exact Or.inr hh

/-- Assignment preserves key uniqueness. -/
theorem nodup_keys_set (d : Ledger) (k : String) (v : Record)
    (h : (ledgerKeys d).Nodup) : (ledgerKeys (ledgerSet d k v)).Nodup := by
  induction d with
  | nil => simp [ledgerSet, ledgerKeys]
  | cons p rest ih =>
    obtain ⟨a, b⟩ := p
    simp only [ledgerKeys, List.nodup_cons] at h
    obtain ⟨hna, hnd⟩ := h
    by_cases ha : a = k
    · subst ha
      simp only [ledgerSet, if_pos rfl, ledgerKeys, List.nodup_cons]
      exact ⟨hna, hnd⟩
    · simp only [ledgerSet, if_neg ha, ledgerKeys, List.nodup_cons]
      refine ⟨fun hmem => ?_, ih hnd⟩
      rcases mem_keys_set rest k v a hmem with hh | hh
      · exact hna hh
      · exact ha hh

/-- Deletion's keys form a sublist of the old keys. -/
theorem keys_del_sublist (d : Ledger) (k : String) :
    (ledgerKeys (ledgerDel d k)).Sublist (ledgerKeys d) := by
  induction d with
  | nil => simp [ledgerDel, ledgerKeys]
  | cons p rest ih =>
    obtain ⟨a, b⟩ := p
    by_cases ha : a = k
    · simp only [ledgerDel, if_pos ha, ledgerKeys]
      exact List.Sublist.cons a (List.Sublist.refl _)
    · simp only [ledgerDel, if_neg ha, ledgerKeys]
      exact List.Sublist.cons₂ a ih

/-- Deletion preserves key uniqueness. -/
theorem nodup_keys_del (d : Ledger) (k : String)
    (h : (ledgerKeys d).Nodup) : (ledgerKeys (ledgerDel d k)).Nodup :=
  List.Nodup.sublist (keys_del_sublist d k) h

/-- With unique keys, deletion removes the key entirely. -/
theorem ledgerGet_del_self (d : Ledger) (k : String)
    (h : (ledgerKeys d).Nodup) : ledgerGet (ledgerDel d k) k = none := by
  induction d with
  | nil => simp [ledgerDel, ledgerGet]
  | cons p rest ih =>
    obtain ⟨a, b⟩ := p
    simp only [ledgerKeys, List.nodup_cons] at h
    obtain ⟨hna, hnd⟩ := h
    by_cases ha : a = k
    · subst ha
      simp only [ledgerDel, if_pos rfl]
      exact (ledgerGet_none_iff rest a).mpr hna
    · simp [ledgerDel, ledgerGet, ha, ih hnd]

/-- Reading a valid ledger file yields its document. -/
theorem get_installed_packs_valid (d : Ledger) :
    get_installed_packs (LedgerFile.valid d) = d := rfl

/-- The file-system effect of `mark_installed` is the assigned document. -/
theorem apply_mark_installed (fs : LedgerFile) (pid : String) (info : Record) :
    applyOps fs (mark_installed fs pid info) =
      LedgerFile.valid (ledgerSet (get_installed_packs fs) pid info) := by
  simp [mark_installed, applyOps, applyOp]

/-- The file-system effect of `mark_uninstalled`: the deleted document when
the key was present, the untouched file otherwise. -/
theorem apply_mark_uninstalled (fs : LedgerFile) (pid : String) :
    applyOps fs (mark_uninstalled fs pid) =
      if (ledgerGet (get_installed_packs fs) pid).isSome then
        LedgerFile.valid (ledgerDel (get_installed_packs fs) pid)
      else fs := by
  by_cases h : (ledgerGet (get_installed_packs fs) pid).isSome = true
  · simp [mark_uninstalled, h, applyOps, applyOp]
  · simp [mark_uninstalled, h, applyOps, applyOp]

/-! ### Claim C3 — atomicity of ledger writes -/

/-- Claim C3, counterexample: the ledger write performed by
`mark_installed` (and by `mark_uninstalled` on a present key) is a direct
whole-document write to the ledger path; neither trace contains a rename,
so no write goes through a temporary path followed by a rename. -/
theorem C3_atomic_writes_counterexample :
    (∃ op ∈ mark_installed (LedgerFile.valid []) "whatsapp"
        [("name", "WhatsApp Gold")], isWriteToState op = true)
    ∧ (∀ op ∈ mark_installed (LedgerFile.valid []) "whatsapp"
        [("name", "WhatsApp Gold")], isRename op = false)
    ∧ (∃ op ∈ mark_uninstalled
        (LedgerFile.valid [("whatsapp", [("name", "WhatsApp Gold")])])
        "whatsapp", isWriteToState op = true)
    ∧ (∀ op ∈ mark_uninstalled
        (LedgerFile.valid [("whatsapp", [("name", "WhatsApp Gold")])])
        "whatsapp", isRename op = false) := by
  decide

/-- Claim C3, amended: every ledger write of `mark_installed` and
`mark_uninstalled` is a single direct `write_text` of the full JSON document
to the ledger path, with no temporary file and no rename; an I/O failure
during such a write can therefore leave a partially written file. -/
theorem C3_direct_unstaged_writes (fs : LedgerFile) (pack_id : String)
    (info : Record) :
    mark_installed fs pack_id info =
      [FsOp.mkdirParents simplifiaDir,
       FsOp.write stateFilePath (ledgerSet (get_installed_packs fs) pack_id info)]
    ∧ mark_uninstalled fs pack_id =
      (if (ledgerGet (get_installed_packs fs) pack_id).isSome then
        [FsOp.write stateFilePath (ledgerDel (get_installed_packs fs) pack_id)]
       else [])
    ∧ (∀ op ∈ mark_installed fs pack_id info, isRename op = false)
    ∧ (∀ op ∈ mark_uninstalled fs pack_id, isRename op = false) := by
  refine ⟨rfl, ?_, ?_, ?_⟩
  · by_cases h : (ledgerGet (get_installed_packs fs) pack_id).isSome = true
    · simp [mark_uninstalled, h]
    · simp [mark_uninstalled, h]
  · intro op hop
    simp only [mark_installed, List.mem_cons, List.not_mem_nil, or_false] at hop
    rcases hop with h | h <;> simp [h, isRename]
  · intro op hop
    by_cases h : (ledgerGet (get_installed_packs fs) pack_id).isSome = true
    · simp only [mark_uninstalled, h, if_true, List.mem_cons, List.not_mem_nil,
        or_false] at hop
      simp [hop, isRename]
    · simp [mark_uninstalled, h] at hop

/-! ### Claim C7 — ledger round-trip -/

/-- Claim C7: on a ledger file with unique keys, `put` (`mark_installed`)
followed by reading the file yields exactly the stored record under the
pack id, a subsequent `remove` (`mark_uninstalled`) yields a mapping
without that key, and both operations preserve the at-most-one-record-per-
pack-id invariant. -/
theorem C7_ledger_roundtrip (fs : LedgerFile) (pack_id : String)
    (info : Record)
    (hnd : (ledgerKeys (get_installed_packs fs)).Nodup) :
    ledgerGet (get_installed_packs
        (applyOps fs (mark_installed fs pack_id info))) pack_id = some info
    ∧ ledgerGet (get_installed_packs
        (applyOps (applyOps fs (mark_installed fs pack_id info))
          (mark_uninstalled (applyOps fs (mark_installed fs pack_id info))
            pack_id))) pack_id = none
    ∧ (ledgerKeys (get_installed_packs
        (applyOps fs (mark_installed fs pack_id info)))).Nodup
    ∧ (ledgerKeys (get_installed_packs
        (applyOps (applyOps fs (mark_installed fs pack_id info))
          (mark_uninstalled (applyOps fs (mark_installed fs pack_id info))
            pack_id)))).Nodup := by
  have hput : ledgerGet (ledgerSet (get_installed_packs fs) pack_id info)
      pack_id = some info := ledgerGet_set_self _ _ _
  have hputnd : (ledgerKeys (ledgerSet (get_installed_packs fs) pack_id
      info)).Nodup := nodup_keys_set _ _ _ hnd
  rw [apply_mark_installed, apply_mark_uninstalled]
  simp only [get_installed_packs_valid, hput, Option.isSome_some, if_true]
  exact ⟨trivial, ledgerGet_del_self _ _ hputnd, hputnd, nodup_keys_del _ _ hputnd⟩

/-- Witness for C7 at a concrete ledger file and record. -/
theorem C7_ledger_roundtrip_witness :
    ledgerGet (get_installed_packs
        (applyOps (LedgerFile.valid []) (mark_installed (LedgerFile.valid [])
          "whatsapp" [("name", "WhatsApp Gold"), ("version", "1.2.0"),
            ("installed_at", "2024-01-01T00:00:00Z")]))) "whatsapp"
      = some [("name", "WhatsApp Gold"), ("version", "1.2.0"),
          ("installed_at", "2024-01-01T00:00:00Z")]
    ∧ ledgerGet (get_installed_packs
        (applyOps (applyOps (LedgerFile.valid [])
            (mark_installed (LedgerFile.valid []) "whatsapp"
              [("name", "WhatsApp Gold"), ("version", "1.2.0"),
               ("installed_at", "2024-01-01T00:00:00Z")]))
          (mark_uninstalled (applyOps (LedgerFile.valid [])
            (mark_installed (LedgerFile.valid []) "whatsapp"
              [("name", "WhatsApp Gold"), ("version", "1.2.0"),
               ("installed_at", "2024-01-01T00:00:00Z")])) "whatsapp")))
        "whatsapp" = none := by
  have h := C7_ledger_roundtrip (LedgerFile.valid []) "whatsapp"
    [("name", "WhatsApp Gold"), ("version", "1.2.0"),
     ("installed_at", "2024-01-01T00:00:00Z")] (by decide)
  exact ⟨h.1, h.2.1⟩

/-! ### Claim C10 — ledger frame property -/

/-- Claim C10: `mark_installed` changes only the entry of the given pack id
(every other key reads the same before and after), and `mark_uninstalled`
of an absent pack id performs no file-system write at all, leaving the
ledger file untouched. -/
theorem C10_ledger_frame (fs : LedgerFile) (pack_id : String)
    (info : Record) (k : String) (hk : k ≠ pack_id) :
    ledgerGet (get_installed_packs
        (applyOps fs (mark_installed fs pack_id info))) k
      = ledgerGet (get_installed_packs fs) k
    ∧ (ledgerGet (get_installed_packs fs) pack_id = none →
        mark_uninstalled fs pack_id = []
        ∧ applyOps fs (mark_uninstalled fs pack_id) = fs) := by
  constructor
  · rw [apply_mark_installed]
    exact ledgerGet_set_other _ _ _ _ hk
  · intro habs
    have hnone : mark_uninstalled fs pack_id = [] := by
      simp [mark_uninstalled, habs]
    exact ⟨hnone, by rw [hnone]; rfl⟩

/-- Witness for C10: installing one pack over a ledger holding another
leaves the other's record unchanged, and removing an absent pack id
performs no write. -/
theorem C10_ledger_frame_witness :
    ledgerGet (get_installed_packs
        (applyOps (LedgerFile.valid [("telegram", [("version", "2.0.0")])])
          (mark_installed (LedgerFile.valid [("telegram", [("version", "2.0.0")])])
            "whatsapp" [("version", "1.2.0")]))) "telegram"
      = ledgerGet (get_installed_packs
          (LedgerFile.valid [("telegram", [("version", "2.0.0")])])) "telegram"
    ∧ (ledgerGet (get_installed_packs
          (LedgerFile.valid [("telegram", [("version", "2.0.0")])]))
          "whatsapp" = none →
        mark_uninstalled
            (LedgerFile.valid [("telegram", [("version", "2.0.0")])])
            "whatsapp" = []
        ∧ applyOps (LedgerFile.valid [("telegram", [("version", "2.0.0")])])
            (mark_uninstalled
              (LedgerFile.valid [("telegram", [("version", "2.0.0")])])
              "whatsapp")
          = LedgerFile.valid [("telegram", [("version", "2.0.0")])]) :=
  C10_ledger_frame (LedgerFile.valid [("telegram", [("version", "2.0.0")])])
    "whatsapp" [("version", "1.2.0")] "telegram" (by decide)

/-! ### Claim C9 — best-effort migrations -/

/-- Claim C9: the migration runner is best-effort over the ordered list:
it distributes over list concatenation (so what happens at one position
never prevents the runner from attempting every later script), a script
whose execution fails is reported individually as a warning and the rest
still run, a missing file is skipped silently without aborting, and a
successful script is reported as such. -/
theorem C9_best_effort_migrations :
    (∀ xs ys : List Migration, run_sqlite_migrations (xs ++ ys)
      = run_sqlite_migrations xs ++ run_sqlite_migrations ys)
    ∧ (∀ (m : Migration) (ms : List Migration), m.present = true →
        m.runOk = false →
        run_sqlite_migrations (m :: ms)
          = MigEv.warn m.name m.errMsg :: run_sqlite_migrations ms)
    ∧ (∀ (m : Migration) (ms : List Migration), m.present = false →
        run_sqlite_migrations (m :: ms) = run_sqlite_migrations ms)
    ∧ (∀ (m : Migration) (ms : List Migration), m.present = true →
        m.runOk = true →
        run_sqlite_migrations (m :: ms)
          = MigEv.ok m.name :: run_sqlite_migrations ms) := by
  refine ⟨?_, ?_, ?_, ?_⟩
  · intro xs ys
    induction xs with
    | nil => simp [run_sqlite_migrations]
    | cons m ms ih => simp [run_sqlite_migrations, ih]
  · intro m ms hp hr
    simp [run_sqlite_migrations, hp, hr]
  · intro m ms hp
    simp [run_sqlite_migrations, hp]
  · intro m ms hp hr
    simp [run_sqlite_migrations, hp, hr]

/-- Witness for C9: a failing first migration is reported as a warning and
the following script still runs, and a missing file is skipped while the
following script still runs. -/
theorem C9_best_effort_migrations_witness :
    run_sqlite_migrations
        [Migration.mk "002_bad.sql" true false "syntax error",
         Migration.mk "003_more.sql" true true ""]
      = MigEv.warn "002_bad.sql" "syntax error" ::
          run_sqlite_migrations [Migration.mk "003_more.sql" true true ""]
    ∧ run_sqlite_migrations
        [Migration.mk "000_missing.sql" false true "",
         Migration.mk "003_more.sql" true true ""]
      = run_sqlite_migrations [Migration.mk "003_more.sql" true true ""] :=
  ⟨C9_best_effort_migrations.2.1
      (Migration.mk "002_bad.sql" true false "syntax error")
      [Migration.mk "003_more.sql" true true ""] rfl rfl,
   C9_best_effort_migrations.2.2.1
      (Migration.mk "000_missing.sql" false true "")
      [Migration.mk "003_more.sql" true true ""] rfl⟩

/-! ### Claim C8 — no-op update -/

/-- Claim C8: when the ledger records the pack at version v and the
registry reports the same latest version, `update_single_pack` is a pure
no-op success (up-to-date outcome, no download, no delegation, hence
ledger and workspace untouched); when the two versions differ it delegates
to the install flow with force set to true. -/
theorem C8_noop_update :
    (∀ (installed : Ledger) (pack_id : String) (r : Record) (pi : PackInfo)
        (v : String),
      ledgerGet installed pack_id = some r →
      recGetD r "version" "0.0.0" = v →
      pi.latest_version = some v →
      update_single_pack installed pack_id (some pi)
        = (UpdateOutcome.upToDate v, []))
    ∧ (∀ (installed : Ledger) (pack_id : String) (r : Record) (pi : PackInfo),
      ledgerGet installed pack_id = some r →
      recGetD r "version" "0.0.0" ≠ pi.latest_version.getD "0.0.0" →
      update_single_pack installed pack_id (some pi)
        = (UpdateOutcome.delegatedInstall pack_id true,
           [UpdEv.installDelegate pack_id true])) := by
  constructor
  · intro installed pack_id r pi v hr hv hl
    simp [update_single_pack, hr, hv, hl]
  · intro installed pack_id r pi hr hne
    simp [update_single_pack, hr, hne]

/-- Witness for C8: a ledger holding whatsapp at 1.0.0 against a registry
latest of 1.0.0 is up to date; against 2.0.0 it delegates with force. -/
theorem C8_noop_update_witness :
    update_single_pack [("whatsapp", [("version", "1.0.0")])] "whatsapp"
        (some (PackInfo.mk (some "WhatsApp Gold") (some "https://x/p.zip")
          none (some "1.0.0")))
      = (UpdateOutcome.upToDate "1.0.0", [])
    ∧ update_single_pack [("whatsapp", [("version", "1.0.0")])] "whatsapp"
        (some (PackInfo.mk (some "WhatsApp Gold") (some "https://x/p.zip")
          none (some "2.0.0")))
      = (UpdateOutcome.delegatedInstall "whatsapp" true,
         [UpdEv.installDelegate "whatsapp" true]) :=
  ⟨C8_noop_update.1 [("whatsapp", [("version", "1.0.0")])] "whatsapp"
      [("version", "1.0.0")]
      (PackInfo.mk (some "WhatsApp Gold") (some "https://x/p.zip")
        none (some "1.0.0")) "1.0.0" (by decide) (by decide) rfl,
   C8_noop_update.2 [("whatsapp", [("version", "1.0.0")])] "whatsapp"
      [("version", "1.0.0")]
      (PackInfo.mk (some "WhatsApp Gold") (some "https://x/p.zip")
        none (some "2.0.0")) (by decide) (by decide)⟩

/-! ### Claim C2 — path traversal -/

/-- A successful single-member extraction places the member at its
sanitised path. -/
theorem extractMember_ok (name : String) (p : List String)
    (h : extractMember name = Except.ok p) : p = sanitizeParts name := by
  unfold extractMember at h
  by_cases hc : ((sanitizeParts name).isEmpty && !isDirMember name) = true
  · rw [if_pos hc] at h
    exact Except.noConfusion h
  · rw [if_neg hc] at h
    exact (Except.ok.inj h).symm

/-- A failing single-member extraction raises only the empty-filename
error, never a path-traversal rejection. -/
theorem extractMember_error (name : String) (err : ExtractionError)
    (h : extractMember name = Except.error err) :
    err = ExtractionError.emptyFileName := by
  unfold extractMember at h
  by_cases hc : ((sanitizeParts name).isEmpty && !isDirMember name) = true
  · rw [if_pos hc] at h
    exact (Except.error.inj h).symm
  · rw [if_neg hc] at h
    exact Except.noConfusion h

/-- Every path extracted by a successful `extractall` run consists of safe
components only. -/
theorem extractall_ok_safe (entries : List String)
    (paths : List (List String)) (h : extractall entries = Except.ok paths) :
    ∀ parts ∈ paths, parts.all componentSafe = true := by
  induction entries generalizing paths with
  | nil =>
    rw [extractall] at h
    rw [← Except.ok.inj h]
    intro parts hparts
    exact absurd hparts (List.not_mem_nil parts)
  | cons e rest ih =>
    rw [extractall] at h
    cases hm : extractMember e with
    | error err => rw [hm] at h; exact Except.noConfusion h
    | ok p =>
      rw [hm] at h
      cases hr : extractall rest with
      | error err => rw [hr] at h; exact Except.noConfusion h
      | ok ps =>
        rw [hr] at h
        rw [← Except.ok.inj h]
        intro parts hparts
        rcases List.mem_cons.mp hparts with hp | hp
        · subst hp
          rw [extractMember_ok e parts hm, List.all_eq_true]
          intro c hc
          exact (List.mem_filter.mp hc).2
        · exact ih ps hr parts hp

/-- A failing `extractall` run raises only the empty-filename error. -/
theorem extractall_error_kind (entries : List String) (err : ExtractionError)
    (h : extractall entries = Except.error err) :
    err = ExtractionError.emptyFileName := by
  induction entries with
  | nil =>
    rw [extractall] at h
    exact Except.noConfusion h
  | cons e rest ih =>
    rw [extractall] at h
    cases hm : extractMember e with
    | error err' =>
      rw [hm] at h
      have hinj : err' = err := Except.error.inj h
      rw [hinj] at hm
      exact extractMember_error e err hm
    | ok p =>
      rw [hm] at h
      cases hr : extractall rest with
      | error err' =>
        rw [hr] at h
        have hinj : err' = err := Except.error.inj h
        rw [hinj] at hr
        exact ih hr
      | ok ps => rw [hr] at h; exact Except.noConfusion h

/-- Claim C2, counterexample: a zip archive whose only entry is named
`../../evil` is not rejected — the extraction used by `install_pack`
(CPython's `extractall`) succeeds and places the sanitised entry `evil`
inside the target directory, so no path-traversal extraction error is
produced for it. -/
theorem C2_path_traversal_counterexample :
    extractall ["../../evil"] = Except.ok [["evil"]]
    ∧ ∀ err : ExtractionError, extractall ["../../evil"] ≠ Except.error err := by
  refine ⟨rfl, ?_⟩
  intro err h
  rw [show extractall ["../../evil"] = Except.ok [["evil"]] from rfl] at h
  exact Except.noConfusion h

/-- Claim C2, amended: extraction never rejects an entry with a
path-traversal error; entry names are sanitised (empty, `.` and `..`
components dropped), every path a successful run extracts consists of safe
components only and therefore resolves inside the target directory, and
the only failure extraction can raise is the stdlib's empty-filename error
for a file member whose entire name sanitises away — which is not a
path-traversal rejection. -/
theorem C2_sanitized_extraction (entries : List String) :
    extractall entries ≠ Except.error ExtractionError.pathTraversal
    ∧ (∀ paths, extractall entries = Except.ok paths →
        ∀ parts ∈ paths, parts.all componentSafe = true)
    ∧ (∀ err, extractall entries = Except.error err →
        err = ExtractionError.emptyFileName) := by
  refine ⟨?_, ?_, ?_⟩
  · intro h
    exact ExtractionError.noConfusion (extractall_error_kind entries _ h)
  · intro paths h
    exact extractall_ok_safe entries paths h
  · intro err h
    exact extractall_error_kind entries err h

/-- Witness for C2 amended: a hostile entry beside an ordinary nested one —
no traversal error, and both extracted paths are made of safe components. -/
theorem C2_sanitized_extraction_witness :
    extractall ["../../evil", "sub/file.txt"]
      ≠ Except.error ExtractionError.pathTraversal
    ∧ ∀ parts ∈ [["evil"], ["sub", "file.txt"]],
        parts.all componentSafe = true :=
  ⟨(C2_sanitized_extraction ["../../evil", "sub/file.txt"]).1,
   (C2_sanitized_extraction ["../../evil", "sub/file.txt"]).2.1
     [["evil"], ["sub", "file.txt"]] rfl⟩

/-! ### Claim C4 — digest comparison and letter case -/

/-- Claim C4, counterexample: the expected digest equal to the SHA-256 of
the downloaded bytes up to letter case (here: the uppercase hex digest of
the empty artifact) is rejected — verification reports a mismatch, because
the code compares the lowercase `hexdigest()` to the expected string with
plain inequality. -/
theorem C4_case_insensitive_counterexample :
    sha256_hexdigest []
      = "e3b0c44298fc1c149afbf4c8996fb92427ae41e4649b934ca495991b7852b855"
    ∧ verify_sha256
        (some "E3B0C44298FC1C149AFBF4C8996FB92427AE41E4649B934CA495991B7852B855")
        []
      = VerifyResult.mismatch
          "E3B0C44298FC1C149AFBF4C8996FB92427AE41E4649B934CA495991B7852B855"
          "e3b0c44298fc1c149afbf4c8996fb92427ae41e4649b934ca495991b7852b855" := by
  constructor <;> decide

/-- Claim C4, amended: digest comparison is exact (case-sensitive) string
equality: a non-empty expected digest verifies exactly when it equals the
lowercase hex SHA-256 of the artifact bytes character for character. -/
theorem C4_exact_comparison (content : List Nat) (expected : String)
    (h : expected ≠ "") :
    verify_sha256 (some expected) content = VerifyResult.verified
      ↔ expected = sha256_hexdigest content := by
  simp only [verify_sha256, if_neg h]
  by_cases hx : sha256_hexdigest content = expected
  · rw [if_neg (not_not_intro hx)]
    simp [hx]
  · rw [if_pos hx]
    exact ⟨fun hh => VerifyResult.noConfusion hh, fun hh => absurd hh.symm hx⟩

/-- Witness for C4 amended: the exact lowercase digest of the empty
artifact verifies. -/
theorem C4_exact_comparison_witness :
    verify_sha256
        (some "e3b0c44298fc1c149afbf4c8996fb92427ae41e4649b934ca495991b7852b855")
        []
      = VerifyResult.verified
      ↔ "e3b0c44298fc1c149afbf4c8996fb92427ae41e4649b934ca495991b7852b855"
        = sha256_hexdigest [] :=
  C4_exact_comparison []
    "e3b0c44298fc1c149afbf4c8996fb92427ae41e4649b934ca495991b7852b855"
    (by decide)

/-! ### Claim C5 — manifest discovery -/

/-- Claim C5: `pack.json` at the extraction root makes the root the
effective root; otherwise the first immediate subdirectory containing
`pack.json` becomes the effective root; when the two-level search finds
nothing, discovery fails and the install run fails with a manifest-missing
error after extraction. -/
theorem C5_manifest_discovery (t : ExtractedTree) :
    (t.root.hasPackJson = true → findPackRoot t = some (none, t.root))
    ∧ (∀ (n : String) (d : ExtractedDir), t.root.hasPackJson = false →
        t.subdirs.find? (fun sd => sd.2.hasPackJson) = some (n, d) →
        findPackRoot t = some (some n, d) ∧ d.hasPackJson = true)
    ∧ (t.root.hasPackJson = false →
        (∀ sd ∈ t.subdirs, sd.2.hasPackJson = false) →
        findPackRoot t = none
        ∧ ∀ (pack_id : String) (pi : PackInfo) (force : Bool)
            (content : List Nat) (now : String),
            pi.sha256 = none → pi.zip_url.getD "" ≠ "" →
            install_pack pack_id (some pi) force (Except.ok content) t now
              = (false, [InstEv.extract, InstEv.manifestMissing])) := by
  refine ⟨?_, ?_, ?_⟩
  · intro h
    simp [findPackRoot, h]
  · intro n d hroot hfind
    refine ⟨by simp [findPackRoot, hroot, hfind], ?_⟩
    simpa using List.find?_some hfind
  · intro hroot hnone
    have hfind : t.subdirs.find? (fun sd => sd.2.hasPackJson) = none := by
      rw [List.find?_eq_none]
      intro x hx
      simp [hnone x hx]
    have hdisc : findPackRoot t = none := by simp [findPackRoot, hroot, hfind]
    refine ⟨hdisc, ?_⟩
    intro pack_id pi force content now hsha hurl
    simp [install_pack, if_neg hurl, hsha, verify_sha256, hdisc]

/-- Witness for C5 at the three concrete archive shapes of the spec. -/
theorem C5_manifest_discovery_witness :
    findPackRoot (ExtractedTree.mk
        (ExtractedDir.mk true (PackConfig.mk (some "A") none)) [])
      = some (none, ExtractedDir.mk true (PackConfig.mk (some "A") none))
    ∧ findPackRoot (ExtractedTree.mk
        (ExtractedDir.mk false (PackConfig.mk none none))
        [("X", ExtractedDir.mk true (PackConfig.mk (some "B") none))])
      = some (some "X", ExtractedDir.mk true (PackConfig.mk (some "B") none))
    ∧ findPackRoot (ExtractedTree.mk
        (ExtractedDir.mk false (PackConfig.mk none none))
        [("X", ExtractedDir.mk false (PackConfig.mk none none))]) = none :=
  ⟨(C5_manifest_discovery _).1 rfl,
   ((C5_manifest_discovery _).2.1 "X"
      (ExtractedDir.mk true (PackConfig.mk (some "B") none)) rfl (by decide)).1,
   ((C5_manifest_discovery _).2.2 rfl (by decide)).1⟩

/-! ### Claim C6 — optional verification -/

/-- Claim C6: with no expected digest in the registry descriptor,
verification is skipped (no digest compared, no verification event at
all), the pipeline proceeds straight to extraction, and the run's success
depends only on manifest discovery — the absence of a digest never causes
a failure. -/
theorem C6_optional_verification (pack_id : String) (pi : PackInfo)
    (force : Bool) (content : List Nat) (tree : ExtractedTree) (now : String)
    (hsha : pi.sha256 = none) (hurl : pi.zip_url.getD "" ≠ "") :
    verify_sha256 pi.sha256 content = VerifyResult.skipped
    ∧ (install_pack pack_id (some pi) force (Except.ok content) tree now).2.head?
        = some InstEv.extract
    ∧ (∀ e a, InstEv.verifyFail e a
        ∉ (install_pack pack_id (some pi) force (Except.ok content) tree now).2)
    ∧ InstEv.verifyOk
        ∉ (install_pack pack_id (some pi) force (Except.ok content) tree now).2
    ∧ ((install_pack pack_id (some pi) force (Except.ok content) tree now).1
          = true
        ↔ (findPackRoot tree).isSome = true) := by
  refine ⟨by simp [hsha, verify_sha256], ?_⟩
  cases hfind : findPackRoot tree with
  | none =>
    have hrun : install_pack pack_id (some pi) force (Except.ok content) tree now
        = (false, [InstEv.extract, InstEv.manifestMissing]) := by
      simp [install_pack, if_neg hurl, hsha, verify_sha256, hfind]
    rw [hrun]
    simp
  | some r =>
    obtain ⟨nm, dir⟩ := r
    have hrun : install_pack pack_id (some pi) force (Except.ok content) tree now
        = (true, [InstEv.extract, InstEv.ledgerPut pack_id
            [("name", dir.packConfig.name.getD pack_id),
             ("version", dir.packConfig.version.getD (pi.latest_version.getD "unknown")),
             ("installed_at", now)]]) := by
      simp [install_pack, if_neg hurl, hsha, verify_sha256, hfind]
    rw [hrun]
    simp

/-- Witness for C6: a descriptor with no digest against an archive with
`pack.json` at root proceeds to extraction and succeeds. -/
theorem C6_optional_verification_witness :
    (install_pack "whatsapp"
        (some (PackInfo.mk (some "WhatsApp Gold") (some "https://x/p.zip")
          none (some "1.0.0")))
        false (Except.ok [])
        (ExtractedTree.mk
          (ExtractedDir.mk true (PackConfig.mk (some "WhatsApp Gold")
            (some "1.0.0"))) [])
        "2024-01-01T00:00:00Z").2.head? = some InstEv.extract :=
  (C6_optional_verification "whatsapp"
    (PackInfo.mk (some "WhatsApp Gold") (some "https://x/p.zip")
      none (some "1.0.0"))
    false []
    (ExtractedTree.mk
      (ExtractedDir.mk true (PackConfig.mk (some "WhatsApp Gold")
        (some "1.0.0"))) [])
    "2024-01-01T00:00:00Z" rfl (by decide)).2.1

/-! ### Claim C1 — digest gate -/

/-- Claim C1: when the registry descriptor supplies a (non-empty) expected
digest that differs from the hex SHA-256 of the downloaded bytes, the
install run returns failure with a trace that is exactly the mismatch
report carrying both digests: no extraction happens, no ledger write
happens, and replaying the trace leaves any ledger file unchanged. -/
theorem C1_digest_gate (pack_id : String) (pi : PackInfo) (force : Bool)
    (content : List Nat) (tree : ExtractedTree) (now : String)
    (expected : String)
    (hurl : pi.zip_url.getD "" ≠ "")
    (hsha : pi.sha256 = some expected) (hne : expected ≠ "")
    (hmis : expected ≠ sha256_hexdigest content) :
    install_pack pack_id (some pi) force (Except.ok content) tree now
      = (false, [InstEv.verifyFail expected (sha256_hexdigest content)])
    ∧ InstEv.extract
        ∉ (install_pack pack_id (some pi) force (Except.ok content) tree now).2
    ∧ (∀ p r, InstEv.ledgerPut p r
        ∉ (install_pack pack_id (some pi) force (Except.ok content) tree now).2)
    ∧ ∀ fs, applyInstEvs fs
        (install_pack pack_id (some pi) force (Except.ok content) tree now).2
      = fs := by
  have hv : verify_sha256 pi.sha256 content
      = VerifyResult.mismatch expected (sha256_hexdigest content) := by
    rw [hsha]
    simp [verify_sha256, if_neg hne, if_pos (Ne.symm hmis)]
  have hrun : install_pack pack_id (some pi) force (Except.ok content) tree now
      = (false, [InstEv.verifyFail expected (sha256_hexdigest content)]) := by
    simp [install_pack, if_neg hurl, hv]
  rw [hrun]
  refine ⟨rfl, by simp, fun p r => by simp, fun fs => by simp [applyInstEvs, applyInstEv]⟩

/-- Witness for C1: a descriptor expecting digest "00" against the empty
artifact fails with the mismatch report and nothing else. -/
theorem C1_digest_gate_witness :
    install_pack "whatsapp"
        (some (PackInfo.mk (some "WhatsApp Gold") (some "https://x/p.zip")
          (some "00") (some "1.0.0")))
        false (Except.ok [])
        (ExtractedTree.mk
          (ExtractedDir.mk true (PackConfig.mk (some "WhatsApp Gold")
            (some "1.0.0"))) [])
        "2024-01-01T00:00:00Z"
      = (false, [InstEv.verifyFail "00" (sha256_hexdigest [])]) :=
  (C1_digest_gate "whatsapp"
    (PackInfo.mk (some "WhatsApp Gold") (some "https://x/p.zip")
      (some "00") (some "1.0.0"))
    false []
    (ExtractedTree.mk
      (ExtractedDir.mk true (PackConfig.mk (some "WhatsApp Gold")
        (some "1.0.0"))) [])
    "2024-01-01T00:00:00Z" "00" (by decide) rfl (by decide) (by decide)).1

end Simplifia
